import Mathlib

/-!
Shallow embedding of the GTestPlugin VS Code extension (TypeScript sources:
`src/testRunner.ts`, `src/buildManager.ts`, `src/testScanner.ts`,
`src/testStore.ts`) together with theorems checking the natural-language
specification against it.

External collaborators (filesystem, the CMake Tools build service, process
spawning, VS Code settings and the debug service) are modelled as explicit
environment records; the extension's own logic is translated function by
function from the TypeScript.
-/

namespace GTestPlugin

/-! ## Character classes and line splitting

JavaScript regex classes, restricted to the ASCII range (the inputs the
program handles are build-tool output and C++ source text). -/

/-- ASCII whitespace, mirroring the regex class backslash-s
(space, tab, newline, carriage return, vertical tab, form feed). -/
def isSpaceChar (c : Char) : Bool :=
  c = ' ' || c = '\t' || c = '\n' || c = '\r' || c = '\x0b' || c = '\x0c'

/-- Word characters, mirroring the regex class backslash-w:
letters, digits and underscore. -/
def isWordChar (c : Char) : Bool :=
  (c ≥ 'a' && c ≤ 'z') || (c ≥ 'A' && c ≤ 'Z') || (c ≥ '0' && c ≤ '9') || c = '_'

/-- Split a character list at every `\n` or `\r\n`, mirroring
`text.split(/\r?\n/)` (a lone `\r` does not split). -/
def splitLinesChars : List Char → List (List Char)
  | [] => [[]]
  | '\r' :: '\n' :: rest => [] :: splitLinesChars rest
  | '\n' :: rest => [] :: splitLinesChars rest
  | c :: rest =>
    match splitLinesChars rest with
    | [] => [[c]]
    | l :: ls => (c :: l) :: ls

/-- Split a string into lines as `String.split(/\r?\n/)` does. -/
def splitLines (s : String) : List (List Char) :=
  splitLinesChars s.data

/-! ## Test status (from `testStore.ts`)

`export type TestStatus = 'none' | 'running' | 'passed' | 'failed' | 'ignored'` -/

/-- Per-test status; `none` is the "not run" state. -/
inductive TestStatus
  | none
  | running
  | passed
  | failed
  | ignored
  deriving DecidableEq, Repr

/-! ## GTest output parsing (from `testRunner.ts`, `parseGTestOutput`)

The marker regexes are `\[\s*FAILED\s*\]\s+(\S+)` and
`\[\s*PASSED\s*\]\s+(\S+)`, run with `line.match(...)` on each line. -/

/-- Try to match the marker regex anchored at the head of `cs`:
`[`, optional whitespace, the keyword, optional whitespace, `]`, at least one
whitespace character, then a maximal nonempty run of non-whitespace characters
(the capture). -/
def matchMarkerAt (kw : List Char) (cs : List Char) : Option (List Char) :=
  match cs with
  | '[' :: rest =>
    let r1 := rest.dropWhile isSpaceChar
    if kw.isPrefixOf r1 then
      let r2 := (r1.drop kw.length).dropWhile isSpaceChar
      match r2 with
      | ']' :: r3 =>
        if (r3.takeWhile isSpaceChar).isEmpty then
          Option.none
        else
          let cap := (r3.dropWhile isSpaceChar).takeWhile (fun c => !isSpaceChar c)
          if cap.isEmpty then Option.none else some cap
      | _ => Option.none
    else Option.none
  | _ => Option.none

/-- Leftmost match of the marker regex in a line: try each start position in
turn, as the regex engine does, and return the first capture. -/
def markerCapture (kw : List Char) : List Char → Option (List Char)
  | [] => Option.none
  | c :: rest =>
    match matchMarkerAt kw (c :: rest) with
    | some cap => some cap
    | Option.none => markerCapture kw rest

/-- Names captured by `[ FAILED ] <name>` marker lines of a text
(the `failed` set built by `parseGTestOutput`). -/
def failedNames (output : String) : List String :=
  (splitLines output).filterMap fun l =>
    (markerCapture "FAILED".data l).map fun cs => String.mk cs

/-- Names captured by `[ PASSED ] <name>` marker lines of a text
(the `passed` set built by `parseGTestOutput`). -/
def passedNames (output : String) : List String :=
  (splitLines output).filterMap fun l =>
    (markerCapture "PASSED".data l).map fun cs => String.mk cs

/-- Status assigned to one requested name by `parseGTestOutput`:
failed if a FAILED marker captured it, else passed if a PASSED marker
captured it, else none. -/
def statusOfName (output : String) (fullName : String) : TestStatus :=
  if fullName ∈ failedNames output then TestStatus.failed
  else if fullName ∈ passedNames output then TestStatus.passed
  else TestStatus.none

/-- `parseGTestOutput(stdout, stderr, executable, fullNames)`: combine the two
streams with a newline, scan every line for pass/fail markers, and emit one
`(fullName, status)` per requested name in request order.  The `executable`
parameter is unused in the source as well. -/
def parseGTestOutput (stdout stderr : String) (_executable : String)
    (fullNames : List String) : List (String × TestStatus) :=
  let output := stdout ++ "\n" ++ stderr
  fullNames.map fun fullName => (fullName, statusOfName output fullName)

/-! ## Filter construction (from `testRunner.ts`, `buildFilter`) -/

/-- `buildFilter(fullNames)`: `"*"` for an empty list, otherwise the names
joined with `":"`. -/
def buildFilter (fullNames : List String) : String :=
  if fullNames.length = 0 then "*" else String.intercalate ":" fullNames

/-! ## Test scanner (from `testScanner.ts`)

The macro regexes are of the shape `^\s*TEST\s*\(\s*(\w+)\s*,\s*(\w+)\s*\)`
(with `m` and `g` flags); `findMatches` resets `lastIndex` and runs one
`exec` per line, so each regex is effectively anchored at the start of the
individual line. -/

/-- Macro kind: `TEST` (plain), `TEST_F` (fixture), `TEST_P` (parameterized). -/
inductive TestKind
  | TEST
  | TEST_F
  | TEST_P
  deriving DecidableEq, Repr

/-- The literal macro keyword for each kind. -/
def kindKeyword : TestKind → List Char
  | TestKind.TEST => "TEST".data
  | TestKind.TEST_F => "TEST_F".data
  | TestKind.TEST_P => "TEST_P".data

/-- Fixed order of the three scanner passes in `scanFile`. -/
def kindRank : TestKind → Nat
  | TestKind.TEST => 0
  | TestKind.TEST_F => 1
  | TestKind.TEST_P => 2

/-- Match one line against a macro regex: optional leading whitespace, the
keyword, optional whitespace, `(`, optional whitespace, an identifier,
optional whitespace, `,`, optional whitespace, an identifier, optional
whitespace, `)`.  Returns the two captured identifiers. -/
def matchMacroLine (kw : List Char) (line : List Char) : Option (String × String) :=
  let r0 := line.dropWhile isSpaceChar
  if kw.isPrefixOf r0 then
    match (r0.drop kw.length).dropWhile isSpaceChar with
    | '(' :: r2 =>
      let r3 := r2.dropWhile isSpaceChar
      let suite := r3.takeWhile isWordChar
      if suite.isEmpty then Option.none
      else
        match (r3.dropWhile isWordChar).dropWhile isSpaceChar with
        | ',' :: r5 =>
          let r6 := r5.dropWhile isSpaceChar
          let test := r6.takeWhile isWordChar
          if test.isEmpty then Option.none
          else
            match (r6.dropWhile isWordChar).dropWhile isSpaceChar with
            | ')' :: _ => some (String.mk suite, String.mk test)
            | _ => Option.none
        | _ => Option.none
    | _ => Option.none
  else Option.none

/-- One raw match from `findMatches`: suite, test and 1-based line number. -/
structure ScanMatch where
  suiteName : String
  testName : String
  line : Nat
  deriving DecidableEq, Repr

/-- The per-line loop inside `findMatches`, carrying the 0-based index `i`;
a match on index `i` is recorded with line number `i + 1`. -/
def findMatchesFrom (kw : List Char) : List (List Char) → Nat → List ScanMatch
  | [], _ => []
  | l :: rest, i =>
    match matchMacroLine kw l with
    | some (s, t) => ⟨s, t, i + 1⟩ :: findMatchesFrom kw rest (i + 1)
    | Option.none => findMatchesFrom kw rest (i + 1)

/-- `findMatches(text, regex, kind)`: split the text into lines and match each
line once against the macro regex. -/
def findMatches (text : String) (kw : List Char) : List ScanMatch :=
  findMatchesFrom kw (splitLines text) 0

/-- A scanned test (`ScannedTest` in `testScanner.ts`). -/
structure ScannedTest where
  suiteName : String
  testName : String
  line : Nat
  kind : TestKind
  fullName : String
  deriving DecidableEq, Repr

/-- One `run(regex, kind)` pass of `scanFile`: all matches of one macro kind
over the whole text, tagged with the kind, with
`fullName = suiteName ++ "." ++ testName`. -/
def scanPass (content : String) (kind : TestKind) : List ScannedTest :=
  (findMatches content (kindKeyword kind)).map fun m =>
    { suiteName := m.suiteName
      testName := m.testName
      line := m.line
      kind := kind
      fullName := m.suiteName ++ "." ++ m.testName }

/-- The pure core of `scanFile` (after `readFileSync`; an unreadable file
short-circuits to `[]` before this point): run the three passes in the fixed
order TEST, TEST_F, TEST_P and concatenate their results. -/
def scanText (content : String) : List ScannedTest :=
  scanPass content TestKind.TEST ++ scanPass content TestKind.TEST_F ++
    scanPass content TestKind.TEST_P

/-! ## Staleness tracker (from `buildManager.ts`)

The filesystem is a map from path to optional mtime (in ms);
`fs.statSync(p).mtimeMs` is modelled by `getMtime`, which returns `0` for a
missing file exactly as the source's `getMtime` does, and `fs.existsSync`
by `Option.isSome`.  The durable key-value storage keys are
`lastCmakeMtime_<root>` and `lastSourceMtimes_<root>`; the store is modelled
with the root as an explicit argument. -/

/-- A filesystem snapshot: path to mtime (ms), `none` when the file is absent. -/
def FileSys := String → Option Nat

/-- `getMtime(filePath)`: mtime in ms, `0` if the file does not exist. -/
def getMtime (fs : FileSys) (p : String) : Nat :=
  (fs p).getD 0

/-- Path of the build-description file at a project root
(`path.join(root, 'CMakeLists.txt')`). -/
def cmakePath (root : String) : String :=
  root ++ "/CMakeLists.txt"

/-- `findCmakeLists`: the singleton list holding the root's CMakeLists.txt
when it exists, else the empty list. -/
def findCmakeLists (fs : FileSys) (root : String) : List String :=
  if (fs (cmakePath root)).isSome then [cmakePath root] else []

/-- Persisted staleness records, per project root: the last
build-description mtime (`storage.get(key, 0)`, so `0` when never written)
and the per-path source-mtime record object (an association list, so a path
may genuinely have no record). -/
structure StalenessStore where
  cmake : String → Nat
  sources : String → List (String × Nat)

/-- `cmakeListsChanged`: false when no CMakeLists.txt exists; otherwise the
max of the found files' current mtimes compared strictly against the
persisted value. -/
def cmakeListsChanged (fs : FileSys) (root : String) (store : StalenessStore) : Bool :=
  let lists := findCmakeLists fs root
  if lists.isEmpty then false
  else
    let last := store.cmake root
    let current := (lists.map (getMtime fs)).foldr max 0
    decide (last < current)

/-- `saveCmakeMtimes`: persist the current max CMakeLists mtime for the root
(no-op when no CMakeLists.txt exists). -/
def saveCmakeMtimes (fs : FileSys) (root : String) (store : StalenessStore) :
    StalenessStore :=
  let lists := findCmakeLists fs root
  if lists.isEmpty then store
  else
    let current := (lists.map (getMtime fs)).foldr max 0
    { store with cmake := fun r => if r = root then current else store.cmake r }

/-- A code-model target (`codeModel.configurations[0].projects[].targets[]`):
name, type string, artifact paths, and the file groups' source lists. -/
structure Target where
  name : String
  type : String
  artifacts : List String
  fileGroups : List (List String)

/-- A code-model project node: its targets. -/
structure ProjNode where
  targets : List Target

/-- The external build service's project handle: the code model (already
narrowed to `configurations[0].projects`, which is what every consumer reads;
`none` models any break in the optional chain
`codeModel?.configurations?.[0]?.projects`) and the build directory. -/
structure ProjectModel where
  codeModel : Option (List ProjNode)
  buildDir : Option String

/-- Lower-cased extension test used by `getSourcePathsForExecutables`. -/
def isSourceExt (s : String) : Bool :=
  let lower := s.toLower
  lower.endsWith ".cpp" || lower.endsWith ".hpp" ||
    lower.endsWith ".cxx" || lower.endsWith ".hxx"

/-- Deduplicate keeping the first occurrence of each element, as inserting
into a JavaScript `Set` and converting back with `Array.from` does. -/
def dedupFirstAux (seen : List String) : List String → List String
  | [] => []
  | x :: xs =>
    if x ∈ seen then dedupFirstAux seen xs
    else x :: dedupFirstAux (x :: seen) xs

/-- Deduplicate a list keeping first occurrences, in order. -/
def dedupFirst (l : List String) : List String :=
  dedupFirstAux [] l

/-- `getSourcePathsForExecutables`: all `.cpp/.hpp/.cxx/.hxx` sources of the
EXECUTABLE targets whose name is in `executableNames`, deduplicated. -/
def getSourcePathsForExecutables (project : ProjectModel)
    (executableNames : List String) : List String :=
  match project.codeModel with
  | Option.none => []
  | some projs =>
    dedupFirst <| projs.flatMap fun proj =>
      proj.targets.flatMap fun target =>
        if target.type = "EXECUTABLE" && executableNames.contains target.name then
          target.fileGroups.flatMap fun sources => sources.filter isSourceExt
        else []

/-- Record lookup `lastMap[p]` on the persisted source-mtime object. -/
def lookupMtime (m : List (String × Nat)) (p : String) : Option Nat :=
  match m with
  | [] => Option.none
  | (q, v) :: rest => if q = p then some v else lookupMtime rest p

/-- `sourcesChanged`: false when the mapped path set is empty; otherwise true
iff some path's current mtime strictly exceeds its persisted value
(`lastMap[p] ?? 0`). -/
def sourcesChanged (fs : FileSys) (root : String) (store : StalenessStore)
    (project : ProjectModel) (executableNames : List String) : Bool :=
  let paths := getSourcePathsForExecutables project executableNames
  if paths.isEmpty then false
  else
    let lastMap := store.sources root
    paths.any fun p => decide ((lookupMtime lastMap p).getD 0 < getMtime fs p)

/-- Record assignment `lastMap[p] = v`: overwrite in place, or append a new
key at the end. -/
def setMtimeRec (m : List (String × Nat)) (p : String) (v : Nat) :
    List (String × Nat) :=
  match m with
  | [] => [(p, v)]
  | (q, w) :: rest => if q = p then (p, v) :: rest else (q, w) :: setMtimeRec rest p v

/-- `saveSourceMtimes`: write each mapped path's current mtime into the
root's persisted record. -/
def saveSourceMtimes (fs : FileSys) (root : String) (store : StalenessStore)
    (project : ProjectModel) (executableNames : List String) : StalenessStore :=
  let paths := getSourcePathsForExecutables project executableNames
  { store with
    sources := fun r =>
      if r = root then
        paths.foldl (fun m p => setMtimeRec m p (getMtime fs p)) (store.sources r)
      else store.sources r }

/-- Whether the external build service's `configure()` and `build()` calls
succeed (a `false` models the promise rejecting). -/
structure BuildSvc where
  configureOk : Bool
  buildOk : Bool

/-- One external call issued by `ensureBuilt`. -/
inductive ExtCall
  | configure
  | build (targets : List String)
  deriving DecidableEq, Repr

/-- Result of one `ensureBuilt` invocation: the returned value (`error` when
an external call rejected and the exception propagated), the staleness store
afterwards, and the external calls issued, in order. -/
structure EBResult where
  ret : Except Unit Bool
  store : StalenessStore
  calls : List ExtCall

/-- The build stage of `ensureBuilt` (from `sourcesChanged` on): run the
build when sources changed or a configure happened, and persist the source
mtimes only after the build call succeeds. -/
def ensureBuiltStage2 (fs : FileSys) (svc : BuildSvc) (root : String)
    (proj : ProjectModel) (store1 : StalenessStore) (executableNames : List String)
    (callsSoFar : List ExtCall) (needConfigure : Bool) : EBResult :=
  let needBuild := sourcesChanged fs root store1 proj executableNames
  if needBuild || needConfigure then
    if svc.buildOk then
      { ret := Except.ok true
        store := saveSourceMtimes fs root store1 proj executableNames
        calls := callsSoFar ++ [ExtCall.build executableNames] }
    else
      { ret := Except.error ()
        store := store1
        calls := callsSoFar ++ [ExtCall.build executableNames] }
  else
    { ret := Except.ok true, store := store1, calls := callsSoFar }

/-- `ensureBuilt(context, workspaceFolder, executableNames)`: return false
when no project is available; otherwise configure when the build description
changed (persisting its mtime only on success) and build when sources changed
or a configure happened (persisting source mtimes only on success).  A
rejected external call propagates (`Except.error`). -/
def ensureBuiltModel (fs : FileSys) (svc : BuildSvc) (root : String)
    (project : Option ProjectModel) (store : StalenessStore)
    (executableNames : List String) : EBResult :=
  match project with
  | Option.none => { ret := Except.ok false, store := store, calls := [] }
  | some proj =>
    let needConfigure := cmakeListsChanged fs root store
    if needConfigure then
      if svc.configureOk then
        ensureBuiltStage2 fs svc root proj (saveCmakeMtimes fs root store)
          executableNames [ExtCall.configure] true
      else
        { ret := Except.error (), store := store, calls := [ExtCall.configure] }
    else
      ensureBuiltStage2 fs svc root proj store executableNames [] false

/-- Whether an external call is a configure call. -/
def isConfigureCall : ExtCall → Bool
  | ExtCall.configure => true
  | ExtCall.build _ => false

/-- Whether an external call is a build call. -/
def isBuildCall : ExtCall → Bool
  | ExtCall.configure => false
  | ExtCall.build _ => true

/-- Count of configure calls in a call trace. -/
def configureCount (calls : List ExtCall) : Nat :=
  (calls.filter isConfigureCall).length

/-- Count of build calls in a call trace. -/
def buildCount (calls : List ExtCall) : Nat :=
  (calls.filter isBuildCall).length

/-! ## Result store (from `testStore.ts`)

The store is a `Map` keyed by `testKey(executable, fullName)`; it is
modelled as a function from the key string to an optional entry. -/

/-- `testKey(executable, fullName)`. -/
def testKey (executable fullName : String) : String :=
  executable ++ "::" ++ fullName

/-- One stored test result (`TestResult` in `testStore.ts`). -/
structure TestResultM where
  status : TestStatus
  output : String
  lastRunTime : Option Nat

/-- The result store's map contents. -/
def TestStoreMap := String → Option TestResultM

/-- `setStatus`: overwrite the status, keep previous output (`?? ''`) and
last-run time. -/
def setStatus (store : TestStoreMap) (executable fullName : String)
    (status : TestStatus) : TestStoreMap :=
  let key := testKey executable fullName
  let prev := store key
  fun k =>
    if k = key then
      some { status := status
             output := (prev.map (fun r => r.output)).getD ""
             lastRunTime := prev.bind (fun r => r.lastRunTime) }
    else store k

/-- `setOutput`: overwrite the output, keep previous status (`?? 'none'`),
stamp the current time. -/
def setOutput (store : TestStoreMap) (executable fullName : String)
    (output : String) (now : Nat) : TestStoreMap :=
  let key := testKey executable fullName
  let prev := store key
  fun k =>
    if k = key then
      some { status := (prev.map (fun r => r.status)).getD TestStatus.none
             output := output
             lastRunTime := some now }
    else store k

/-- `setStatusBulk`: apply the `setStatus` record update for each entry in
order (one change notification for the whole batch). -/
def setStatusBulk (store : TestStoreMap) (executable : String)
    (entries : List (String × TestStatus)) : TestStoreMap :=
  entries.foldl (fun s e => setStatus s executable e.1 e.2) store

/-! ## Run / debug orchestration (from `testRunner.ts`) -/

/-- Result of spawning the test executable: captured streams and exit code.
A process launch failure surfaces as empty streams with exit code `-1`
(the `close` handler's `code ?? -1`). -/
structure ProcResult where
  stdout : String
  stderr : String
  exitCode : Int

/-- The miDebuggerPath / envFile fields of a matching launch.json
configuration, as returned by `getMatchingLaunchConfig`. -/
structure LaunchFields where
  miDebuggerPath : Option String
  envFile : Option String

/-- Environment of one run/debug invocation: every external input the
orchestrator consumes (build service project, external call outcomes,
filesystem snapshot, effective project root, configuration values, the
matching launch.json fields, the spawned process's result, the clock and the
workspace folder path). -/
structure RunEnv where
  project : Option ProjectModel
  svc : BuildSvc
  fs : FileSys
  root : String
  baseFilter : String
  gtestFlags : List String
  envVars : List (String × String)
  pluginGdb : Option String
  pluginEnvFile : Option String
  launchMatch : Option LaunchFields
  procOut : ProcResult
  now : Nat
  workspaceFolder : String

/-- A composed debug configuration (`vscode.DebugConfiguration` as built by
`debugTestsWithNames`). -/
structure DebugConfig where
  type : String
  request : String
  name : String
  program : String
  args : List String
  cwd : String
  environment : List (String × String)
  miDebuggerPath : Option String
  envFile : Option String

/-- Observable events of one run/debug invocation. -/
inductive RunEv
  | configureCall
  | buildCall (targets : List String)
  | showError (msg : String)
  | spawn (exe : String) (args : List String) (cwd : String)
  | appendRun (executable : String) (fullNames : List String) (output : String)
  | startDebug (cfg : DebugConfig)

/-- Map an `ensureBuilt` external call to a run event. -/
def extCallEv : ExtCall → RunEv
  | ExtCall.configure => RunEv.configureCall
  | ExtCall.build ts => RunEv.buildCall ts

/-- Outcome of one orchestrator invocation: the result store, the staleness
store, the events in order, and whether an exception propagated out of
`ensureBuilt`. -/
structure RunOut where
  store : TestStoreMap
  stal : StalenessStore
  events : List RunEv
  threw : Bool

/-- `getExecutablePath(project, targetName)`: first artifact of the first
target with the requested name and a nonempty artifact list. -/
def getExecutablePath (project : ProjectModel) (targetName : String) :
    Option String :=
  match project.codeModel with
  | Option.none => Option.none
  | some projs =>
    projs.findSome? fun proj =>
      proj.targets.findSome? fun target =>
        if target.name = targetName && !target.artifacts.isEmpty then
          target.artifacts.head?
        else Option.none

/-- `path.dirname`, as used only for the fallback working directory:
everything before the last `/`, or `.` when there is none. -/
def dirname (p : String) : String :=
  let parts := p.splitOn "/"
  if parts.length ≤ 1 then "." else String.intercalate "/" parts.dropLast

/-- The working directory: the build directory when the service reports a
non-empty one (`buildDir || path.dirname(exePath)` — an empty string is
falsy), else the artifact's directory. -/
def cwdOf (proj : ProjectModel) (exePath : String) : String :=
  match proj.buildDir with
  | some d => if d = "" then dirname exePath else d
  | Option.none => dirname exePath

/-- JavaScript truthiness of a string-or-undefined value: present and
non-empty. -/
def isPresent : Option String → Bool
  | Option.none => false
  | some s => !(s = "")

/-- `resolveLaunchPath(raw, workspaceFolder)`: substitute every occurrence of
the workspace-folder variable. -/
def resolveLaunchPath (raw : String) (workspaceFolder : String) : String :=
  raw.replace "${workspaceFolder}" workspaceFolder

/-- The final filter passed to the process in `runTestsWithNames`: when a
default filter is configured it is conjoined with `:` unless it starts with
`-`, in which case nothing is appended. -/
def finalFilterOf (baseFilter filter : String) : String :=
  if baseFilter = "" then filter
  else filter ++ (if baseFilter.startsWith "-" then "" else ":" ++ baseFilter)

/-- `runTestsWithNames(context, workspaceFolder, executable, fullNames)`:
translated step for step from the source.  Early returns keep both stores
untouched; an `ensureBuilt` rejection propagates (`threw`); otherwise the
process result is parsed and written to the result store. -/
def runTestsWithNamesModel (env : RunEnv) (stal : StalenessStore)
    (store : TestStoreMap) (executable : String) (fullNames : List String) :
    RunOut :=
  if fullNames.length = 0 then
    { store := store, stal := stal, events := [], threw := false }
  else
    match env.project with
    | Option.none =>
      { store := store, stal := stal
        events := [RunEv.showError "CMake project not available."], threw := false }
    | some proj =>
      match ensureBuiltModel env.fs env.svc env.root (some proj) stal [executable] with
      | { ret := Except.error _, store := stal1, calls := calls } =>
        { store := store, stal := stal1, events := calls.map extCallEv, threw := true }
      | { ret := Except.ok _, store := stal1, calls := calls } =>
        match getExecutablePath proj executable with
        | Option.none =>
          { store := store, stal := stal1
            events := calls.map extCallEv ++
              [RunEv.showError ("Executable not found for target: " ++ executable)]
            threw := false }
        | some exePath =>
          let filter := buildFilter fullNames
          let finalFilter := finalFilterOf env.baseFilter filter
          let args := ("--gtest_filter=" ++ finalFilter) :: env.gtestFlags
          let cwd := cwdOf proj exePath
          let store1 := fullNames.foldl
            (fun s fn => setStatus s executable fn TestStatus.running) store
          let res := env.procOut
          let parsed := parseGTestOutput res.stdout res.stderr executable fullNames
          let store2 := setStatusBulk store1 executable parsed
          let combined := res.stdout ++ "\n" ++ res.stderr
          let store3 := fullNames.foldl
            (fun s fn => setOutput s executable fn combined env.now) store2
          { store := store3, stal := stal1
            events := calls.map extCallEv ++
              [RunEv.spawn exePath args cwd,
               RunEv.appendRun executable fullNames combined]
            threw := false }

/-- The debug-configuration composition of `debugTestsWithNames` (lines after
the artifact is resolved): base fields owned by the plugin, then
`miDebuggerPath` / `envFile` assigned from the plugin's settings when truthy,
then filled from the matching launch.json fields when still unset (the
launch.json `envFile` passes through `resolveLaunchPath`). -/
def composeDebugConfig (env : RunEnv) (executable exePath : String)
    (fullNames : List String) : DebugConfig :=
  let filter := buildFilter fullNames
  let base : DebugConfig :=
    { type := "cppdbg"
      request := "launch"
      name := "GTest: " ++ executable
      program := exePath
      args := ("--gtest_filter=" ++ filter) :: env.gtestFlags
      cwd := cwdOf (env.project.getD ⟨Option.none, Option.none⟩) exePath
      environment := env.envVars
      miDebuggerPath := Option.none
      envFile := Option.none }
  let c1 := if isPresent env.pluginGdb then
      { base with miDebuggerPath := env.pluginGdb } else base
  let c2 := if isPresent env.pluginEnvFile then
      { c1 with envFile := env.pluginEnvFile } else c1
  match env.launchMatch with
  | Option.none => c2
  | some m =>
    let c3 := if !isPresent c2.miDebuggerPath && isPresent m.miDebuggerPath then
        { c2 with miDebuggerPath := m.miDebuggerPath } else c2
    if !isPresent c3.envFile && isPresent m.envFile then
      let resolved := resolveLaunchPath (m.envFile.getD "") env.workspaceFolder
      { c3 with envFile := some resolved }
    else c3

/-- `debugTestsWithNames(context, workspaceFolder, executable, fullNames)`:
same early-return structure as the run path, then composes the debug
configuration and starts the external debug session. -/
def debugTestsWithNamesModel (env : RunEnv) (stal : StalenessStore)
    (store : TestStoreMap) (executable : String) (fullNames : List String) :
    RunOut :=
  if fullNames.length = 0 then
    { store := store, stal := stal, events := [], threw := false }
  else
    match env.project with
    | Option.none =>
      { store := store, stal := stal
        events := [RunEv.showError "CMake project not available."], threw := false }
    | some proj =>
      match ensureBuiltModel env.fs env.svc env.root (some proj) stal [executable] with
      | { ret := Except.error _, store := stal1, calls := calls } =>
        { store := store, stal := stal1, events := calls.map extCallEv, threw := true }
      | { ret := Except.ok _, store := stal1, calls := calls } =>
        match getExecutablePath proj executable with
        | Option.none =>
          { store := store, stal := stal1
            events := calls.map extCallEv ++
              [RunEv.showError ("Executable not found for target: " ++ executable)]
            threw := false }
        | some exePath =>
          { store := store, stal := stal1
            events := calls.map extCallEv ++
              [RunEv.startDebug (composeDebugConfig env executable exePath fullNames)]
            threw := false }

/-! ## Theorems -/

/-- The claimed file-wide ordering of the scanner output: a test on an
earlier line precedes every test on a later line. -/
def lineOrdered (content : String) : Prop :=
  List.Pairwise (fun a b : ScannedTest => a.line ≤ b.line) (scanText content)

/-- The order the scanner actually produces: sorted by macro kind in the
fixed pass order TEST, TEST_F, TEST_P, and by line within one kind. -/
def scanOrder (a b : ScannedTest) : Prop :=
  kindRank a.kind < kindRank b.kind ∨ (a.kind = b.kind ∧ a.line < b.line)

/-- Every match recorded by the `findMatches` loop carries a line number
strictly greater than the starting index. -/
theorem findMatchesFrom_line_gt (kw : List Char) :
    ∀ (ls : List (List Char)) (i : Nat) (m : ScanMatch),
      m ∈ findMatchesFrom kw ls i → i < m.line := by
  intro ls
  induction ls with
  | nil => intro i m hm; simp [findMatchesFrom] at hm
  | cons l rest ih =>
    intro i m hm
    unfold findMatchesFrom at hm
    cases h : matchMacroLine kw l with
    | some st =>
      rw [h] at hm
      rcases st with ⟨s, t⟩
      rcases List.mem_cons.mp hm with h1 | h2
      · subst h1; exact Nat.lt_succ_self i
      · exact Nat.lt_trans (Nat.lt_succ_self i) (ih (i + 1) m h2)
    | none =>
      rw [h] at hm
      exact Nat.lt_trans (Nat.lt_succ_self i) (ih (i + 1) m hm)

/-- The `findMatches` loop produces strictly increasing line numbers. -/
theorem findMatchesFrom_pairwise (kw : List Char) :
    ∀ (ls : List (List Char)) (i : Nat),
      List.Pairwise (fun a b : ScanMatch => a.line < b.line)
        (findMatchesFrom kw ls i) := by
  intro ls
  induction ls with
  | nil => intro i; simp [findMatchesFrom]
  | cons l rest ih =>
    intro i
    unfold findMatchesFrom
    cases h : matchMacroLine kw l with
    | some st =>
      rcases st with ⟨s, t⟩
      refine List.Pairwise.cons ?_ (ih (i + 1))
      intro m hm
      exact findMatchesFrom_line_gt kw rest (i + 1) m hm
    | none => exact ih (i + 1)

/-- Every element of one scanner pass is tagged with that pass's kind. -/
theorem scanPass_kind (content : String) (k : TestKind) (t : ScannedTest)
    (ht : t ∈ scanPass content k) : t.kind = k := by
  rcases List.mem_map.mp ht with ⟨m, _, rfl⟩
  rfl

/-- Within one scanner pass, line numbers are strictly increasing. -/
theorem scanPass_pairwise (content : String) (k : TestKind) :
    List.Pairwise (fun a b : ScannedTest => a.line < b.line)
      (scanPass content k) := by
  refine List.Pairwise.map _ ?_
    (findMatchesFrom_pairwise (kindKeyword k) (splitLines content) 0)
  intro a b hab
  exact hab

/-- Helper: a pass's pairwise line order upgrades to `scanOrder`. -/
theorem scanPass_scanOrder (content : String) (k : TestKind) :
    List.Pairwise scanOrder (scanPass content k) := by
  refine List.Pairwise.imp_of_mem ?_ (scanPass_pairwise content k)
  intro a b ha hb hlt
  exact Or.inr ⟨(scanPass_kind content k a ha).trans
    (scanPass_kind content k b hb).symm, hlt⟩

/-- C5 (amended): the scanner's output is sorted by macro kind in the fixed
pass order TEST, TEST_F, TEST_P and by line number within each kind; the
three whole-file passes are concatenated, so line order holds only inside a
single kind, not across kinds. -/
theorem gtest_C5_scan_order_kind_major (content : String) :
    List.Pairwise scanOrder (scanText content) := by
  unfold scanText
  rw [List.pairwise_append]
  refine ⟨?_, scanPass_scanOrder content TestKind.TEST_P, ?_⟩
  · rw [List.pairwise_append]
    refine ⟨scanPass_scanOrder content TestKind.TEST,
      scanPass_scanOrder content TestKind.TEST_F, ?_⟩
    intro a ha b hb
    left
    rw [scanPass_kind content _ a ha, scanPass_kind content _ b hb]
    decide
  · intro a ha b hb
    left
    rw [scanPass_kind content _ b hb]
    rcases List.mem_append.mp ha with h | h
    · rw [scanPass_kind content _ a h]; decide
    · rw [scanPass_kind content _ a h]; decide

/-- C5 (counterexample): on a file whose first line declares a fixture test
and whose second line declares a plain test, the scanner returns the plain
test (line 2) before the fixture test (line 1), so the output does not
follow line order within the file. -/
theorem gtest_C5_counterexample :
    ¬ lineOrdered "TEST_F(A, B)\nTEST(C, D)" := by
  intro h
  unfold lineOrdered at h
  have he : (scanText "TEST_F(A, B)\nTEST(C, D)").map
      (fun t : ScannedTest => t.line) = [2, 1] := by decide
  have := List.Pairwise.map (fun t : ScannedTest => t.line)
    (fun a b hab => hab) h
  rw [he] at this
  have h21 := (List.pairwise_cons.mp this).1 1 (by simp)
  omega

/-- C8: the filter maps the empty list to `"*"`, a singleton to the bare
name, and any nonempty list to the colon-joined concatenation. -/
theorem gtest_C8_buildFilter (s : String) (names : List String)
    (h : names ≠ []) :
    buildFilter [] = "*" ∧ buildFilter [s] = s ∧
      buildFilter names = String.intercalate ":" names := by
  refine ⟨rfl, ?_, ?_⟩
  · simp [buildFilter, String.intercalate, String.intercalate.go]
  · have : names.length ≠ 0 := fun h0 => h (List.length_eq_zero.mp h0)
    simp [buildFilter, this]

/-- C8 witness: the three concrete examples from the specification. -/
theorem gtest_C8_buildFilter_witness :
    buildFilter [] = "*" ∧ buildFilter ["A.B"] = "A.B" ∧
      buildFilter ["A.B", "C.D"] = String.intercalate ":" ["A.B", "C.D"] :=
  gtest_C8_buildFilter "A.B" ["A.B", "C.D"] (by decide)

/-- C9: running or debugging with an empty name list returns immediately:
no events (no configure, build, spawn, error or debug session), the result
store untouched, the staleness store untouched. -/
theorem gtest_C9_empty_names_no_effects (env : RunEnv) (stal : StalenessStore)
    (store : TestStoreMap) (executable : String) :
    runTestsWithNamesModel env stal store executable [] =
        { store := store, stal := stal, events := [], threw := false } ∧
      debugTestsWithNamesModel env stal store executable [] =
        { store := store, stal := stal, events := [], threw := false } :=
  ⟨rfl, rfl⟩

/-- C10: when the same name is captured by both a FAILED and a PASSED marker
line, `parseGTestOutput` reports it failed — failure takes precedence. -/
theorem gtest_C10_failed_precedence (stdout stderr executable name : String)
    (names : List String) (hmem : name ∈ names)
    (hf : name ∈ failedNames (stdout ++ "\n" ++ stderr))
    (hp : name ∈ passedNames (stdout ++ "\n" ++ stderr)) :
    (name, TestStatus.failed) ∈ parseGTestOutput stdout stderr executable names ∧
      ∀ st, (name, st) ∈ parseGTestOutput stdout stderr executable names →
        st = TestStatus.failed := by
  have hs : statusOfName (stdout ++ "\n" ++ stderr) name = TestStatus.failed := by
    simp [statusOfName, hf]
  constructor
  · have := List.mem_map_of_mem
      (fun n => (n, statusOfName (stdout ++ "\n" ++ stderr) n)) hmem
    simpa [parseGTestOutput, hs] using this
  · intro st hst
    simp only [parseGTestOutput] at hst
    rcases List.mem_map.mp hst with ⟨n, _, hn⟩
    have h1 : n = name := congrArg Prod.fst hn
    have h2 : statusOfName (stdout ++ "\n" ++ stderr) n = st :=
      congrArg Prod.snd hn
    rw [h1, hs] at h2
    exact h2.symm

/-- C10 witness: a text reporting `X.Y` both passed and failed yields
`failed` for the requested name `X.Y`. -/
theorem gtest_C10_failed_precedence_witness :
    (("X.Y", TestStatus.failed) ∈
        parseGTestOutput "[ FAILED ] X.Y\n[ PASSED ] X.Y" "" "exe" ["X.Y"]) ∧
      ∀ st, ("X.Y", st) ∈
          parseGTestOutput "[ FAILED ] X.Y\n[ PASSED ] X.Y" "" "exe" ["X.Y"] →
        st = TestStatus.failed :=
  gtest_C10_failed_precedence "[ FAILED ] X.Y\n[ PASSED ] X.Y" "" "exe" "X.Y"
    ["X.Y"] (by decide) (by decide) (by decide)

/-! ### Staleness-tracker lemmas and claims C2, C3, C4 -/

/-- Persisting the CMakeLists mtime leaves the source-mtime records as they
were. -/
theorem saveCmakeMtimes_sources (fs : FileSys) (root : String)
    (store : StalenessStore) :
    (saveCmakeMtimes fs root store).sources = store.sources := by
  simp only [saveCmakeMtimes]
  split <;> rfl

/-- Persisting the source mtimes leaves the CMakeLists record as it was. -/
theorem saveSourceMtimes_cmake (fs : FileSys) (root : String)
    (store : StalenessStore) (proj : ProjectModel) (names : List String) :
    (saveSourceMtimes fs root store proj names).cmake = store.cmake := rfl

/-- `cmakeListsChanged` holds exactly when the build-description file exists
and its current mtime strictly exceeds the persisted one. -/
theorem cmakeListsChanged_eq (fs : FileSys) (root : String)
    (store : StalenessStore) :
    cmakeListsChanged fs root store =
      ((fs (cmakePath root)).isSome &&
        decide (store.cmake root < getMtime fs (cmakePath root))) := by
  unfold cmakeListsChanged findCmakeLists
  cases h : (fs (cmakePath root)).isSome with
  | false => simp [h]
  | true => simp [h, Nat.max_zero]

/-- The build stage never issues a configure call of its own. -/
theorem configureCount_stage2 (fs : FileSys) (svc : BuildSvc) (root : String)
    (proj : ProjectModel) (store1 : StalenessStore) (names : List String)
    (callsSoFar : List ExtCall) (needConfigure : Bool) :
    configureCount (ensureBuiltStage2 fs svc root proj store1 names
      callsSoFar needConfigure).calls = configureCount callsSoFar := by
  cases hnb : sourcesChanged fs root store1 proj names <;>
    cases needConfigure <;> cases hbo : svc.buildOk <;>
      simp [ensureBuiltStage2, hnb, hbo, configureCount, List.filter_append,
        isConfigureCall]

/-- C2: with a project available, one invocation of `ensureBuilt` issues
exactly one configure call when the build-description file exists and its
mtime strictly exceeds the persisted value, and zero configure calls
otherwise (unchanged mtime, or no build-description file at the root). -/
theorem gtest_C2_configure_iff_stale (fs : FileSys) (svc : BuildSvc)
    (root : String) (proj : ProjectModel) (store : StalenessStore)
    (names : List String) :
    configureCount (ensureBuiltModel fs svc root (some proj) store names).calls =
      if (fs (cmakePath root)).isSome = true ∧
          store.cmake root < getMtime fs (cmakePath root) then 1 else 0 := by
  have hcl := cmakeListsChanged_eq fs root store
  by_cases h : cmakeListsChanged fs root store = true
  · have hcond : (fs (cmakePath root)).isSome = true ∧
        store.cmake root < getMtime fs (cmakePath root) := by
      rw [hcl] at h
      simpa using h
    rw [if_pos hcond]
    cases hco : svc.configureOk with
    | false =>
      have he : ensureBuiltModel fs svc root (some proj) store names =
          { ret := Except.error (), store := store,
            calls := [ExtCall.configure] } := by
        simp [ensureBuiltModel, h, hco]
      rw [he]
      rfl
    | true =>
      have he : ensureBuiltModel fs svc root (some proj) store names =
          ensureBuiltStage2 fs svc root proj (saveCmakeMtimes fs root store)
            names [ExtCall.configure] true := by
        simp [ensureBuiltModel, h, hco]
      rw [he, configureCount_stage2]
      decide
  · have hcond : ¬ ((fs (cmakePath root)).isSome = true ∧
        store.cmake root < getMtime fs (cmakePath root)) := by
      rw [hcl] at h
      simpa using h
    rw [if_neg hcond]
    have hb : cmakeListsChanged fs root store = false :=
      Bool.eq_false_iff.mpr h
    have he : ensureBuiltModel fs svc root (some proj) store names =
        ensureBuiltStage2 fs svc root proj store names [] false := by
      simp [ensureBuiltModel, hb]
    rw [he, configureCount_stage2]
    decide

/-- Modelled from the spec: the per-path staleness condition as the claim
states it — the path's current modification time has advanced past its
persisted record, or the file exists with no prior record (a new file). -/
def specChangedPath (fs : FileSys) (rec : List (String × Nat)) (p : String) :
    Bool :=
  match fs p with
  | Option.none => false
  | some t =>
    match lookupMtime rec p with
    | some r => decide (r < t)
    | Option.none => true

/-- Under the source's 0-as-missing mtime convention (every existing file
has a positive mtime), the code's `sourcesChanged` test agrees with the
claim's per-path staleness condition. -/
theorem sourcesChanged_eq_spec (fs : FileSys) (root : String)
    (store : StalenessStore) (proj : ProjectModel) (names : List String)
    (h0 : ∀ p t, fs p = some t → 0 < t) :
    sourcesChanged fs root store proj names =
      (getSourcePathsForExecutables proj names).any
        (specChangedPath fs (store.sources root)) := by
  have hfg : (fun p => decide
        ((lookupMtime (store.sources root) p).getD 0 < getMtime fs p)) =
      specChangedPath fs (store.sources root) := by
    funext p
    unfold specChangedPath getMtime
    cases hfs : fs p with
    | none => simp [hfs]
    | some t =>
      cases hl : lookupMtime (store.sources root) p with
      | none => simp [hfs, hl, h0 p t hfs]
      | some r => simp [hfs, hl]
  unfold sourcesChanged
  cases hp : (getSourcePathsForExecutables proj names).isEmpty with
  | true =>
    have : getSourcePathsForExecutables proj names = [] :=
      List.isEmpty_iff.mp hp
    simp [this]
  | false => simp [hp, hfg]

/-- C3: with a project available, the configure stage not failing
(`hc`), and every existing file carrying a positive mtime (`h0`, the
source's 0-as-missing convention), one invocation of `ensureBuilt` issues
exactly one build call when some mapped source path is stale in the claim's
sense (mtime advanced past its record, or a new file with no record) or a
configure happened, and no build call when all mapped paths are unchanged
and no configure occurred. -/
theorem gtest_C3_build_iff_sources_stale (fs : FileSys) (svc : BuildSvc)
    (root : String) (proj : ProjectModel) (store : StalenessStore)
    (names : List String)
    (h0 : ∀ p t, fs p = some t → 0 < t)
    (hc : cmakeListsChanged fs root store = true → svc.configureOk = true) :
    buildCount (ensureBuiltModel fs svc root (some proj) store names).calls =
      if ((getSourcePathsForExecutables proj names).any
            (specChangedPath fs (store.sources root))
          || cmakeListsChanged fs root store) = true
      then 1 else 0 := by
  by_cases h : cmakeListsChanged fs root store = true
  · have hco := hc h
    rw [h]
    simp only [Bool.or_true, if_pos rfl]
    cases hbo : svc.buildOk with
    | true => simp [ensureBuiltModel, h, hco, ensureBuiltStage2, hbo,
        buildCount, List.filter_append, isBuildCall]
    | false => simp [ensureBuiltModel, h, hco, ensureBuiltStage2, hbo,
        buildCount, List.filter_append, isBuildCall]
  · have hb : cmakeListsChanged fs root store = false :=
      Bool.eq_false_iff.mpr h
    rw [hb]
    have hsc := sourcesChanged_eq_spec fs root store proj names h0
    simp only [Bool.or_false]
    cases hany : (getSourcePathsForExecutables proj names).any
        (specChangedPath fs (store.sources root)) with
    | true =>
      rw [if_pos rfl]
      rw [hany] at hsc
      cases hbo : svc.buildOk with
      | true => simp [ensureBuiltModel, hb, ensureBuiltStage2, hsc, hbo,
          buildCount, List.filter_append, isBuildCall]
      | false => simp [ensureBuiltModel, hb, ensureBuiltStage2, hsc, hbo,
          buildCount, List.filter_append, isBuildCall]
    | false =>
      rw [if_neg (by simp)]
      rw [hany] at hsc
      simp [ensureBuiltModel, hb, ensureBuiltStage2, hsc, buildCount]

/-- C3 witness: a project mapping one source file that exists on disk with
no persisted record triggers exactly one build call. -/
theorem gtest_C3_build_iff_sources_stale_witness :
    buildCount (ensureBuiltModel
      (fun p => if p = "/w/a_test.cpp" then some 5 else Option.none)
      ⟨true, true⟩ "/w"
      (some ⟨some [⟨[⟨"t", "EXECUTABLE", ["/b/t"], [["/w/a_test.cpp"]]⟩]⟩],
        Option.none⟩)
      ⟨fun _ => 0, fun _ => []⟩ ["t"]).calls =
      if ((getSourcePathsForExecutables
            ⟨some [⟨[⟨"t", "EXECUTABLE", ["/b/t"], [["/w/a_test.cpp"]]⟩]⟩],
              Option.none⟩ ["t"]).any
            (specChangedPath
              (fun p => if p = "/w/a_test.cpp" then some 5 else Option.none)
              ((⟨fun _ => 0, fun _ => []⟩ : StalenessStore).sources "/w"))
          || cmakeListsChanged
              (fun p => if p = "/w/a_test.cpp" then some 5 else Option.none)
              "/w" ⟨fun _ => 0, fun _ => []⟩) = true
      then 1 else 0 :=
  gtest_C3_build_iff_sources_stale
    (fun p => if p = "/w/a_test.cpp" then some 5 else Option.none)
    ⟨true, true⟩ "/w"
    ⟨some [⟨[⟨"t", "EXECUTABLE", ["/b/t"], [["/w/a_test.cpp"]]⟩]⟩], Option.none⟩
    ⟨fun _ => 0, fun _ => []⟩ ["t"]
    (by
      intro p t h
      dsimp only at h
      split at h
      · simp only [Option.some.injEq] at h
        omega
      · exact absurd h (by simp))
    (by intro _; rfl)

/-- C4: the persisted-mtime writes are commit points.  When the configure
call fails, the persisted build-description mtime is unchanged; when the
build call fails, the persisted source mtimes are unchanged; and either
record changes only if the corresponding external call was issued in this
invocation and succeeded. -/
theorem gtest_C4_persist_only_after_success (fs : FileSys) (svc : BuildSvc)
    (root : String) (project : Option ProjectModel) (store : StalenessStore)
    (names : List String) :
    ((cmakeListsChanged fs root store = true → svc.configureOk = false →
        (ensureBuiltModel fs svc root project store names).store = store) ∧
      (svc.configureOk = false →
        (ensureBuiltModel fs svc root project store names).store.cmake =
          store.cmake) ∧
      (svc.buildOk = false →
        (ensureBuiltModel fs svc root project store names).store.sources =
          store.sources) ∧
      ((ensureBuiltModel fs svc root project store names).store.cmake ≠
          store.cmake →
        ExtCall.configure ∈
            (ensureBuiltModel fs svc root project store names).calls ∧
          svc.configureOk = true) ∧
      ((ensureBuiltModel fs svc root project store names).store.sources ≠
          store.sources →
        ExtCall.build names ∈
            (ensureBuiltModel fs svc root project store names).calls ∧
          svc.buildOk = true)) := by
  cases project with
  | none => simp [ensureBuiltModel]
  | some proj =>
    cases hcc : cmakeListsChanged fs root store with
    | true =>
      cases hco : svc.configureOk with
      | false =>
        simp [ensureBuiltModel, hcc, hco]
      | true =>
        cases hbo : svc.buildOk with
        | true =>
          simp [ensureBuiltModel, hcc, hco, ensureBuiltStage2, hbo,
            saveSourceMtimes_cmake, saveCmakeMtimes_sources]
        | false =>
          simp [ensureBuiltModel, hcc, hco, ensureBuiltStage2, hbo,
            saveCmakeMtimes_sources]
    | false =>
      cases hnb : sourcesChanged fs root store proj names with
      | true =>
        cases hbo : svc.buildOk with
        | true =>
          simp [ensureBuiltModel, hcc, ensureBuiltStage2, hnb, hbo,
            saveSourceMtimes_cmake]
        | false =>
          simp [ensureBuiltModel, hcc, ensureBuiltStage2, hnb, hbo]
      | false =>
        simp [ensureBuiltModel, hcc, ensureBuiltStage2, hnb]

/-- C4 witness: with a stale build description and a failing configure call,
the whole staleness store is left unchanged. -/
theorem gtest_C4_persist_only_after_success_witness :
    (ensureBuiltModel (fun p => if p = "/w/CMakeLists.txt" then some 7 else Option.none)
        ⟨false, true⟩ "/w" (some ⟨Option.none, Option.none⟩)
        ⟨fun _ => 0, fun _ => []⟩ []).store =
      (⟨fun _ => 0, fun _ => []⟩ : StalenessStore) :=
  (gtest_C4_persist_only_after_success
    (fun p => if p = "/w/CMakeLists.txt" then some 7 else Option.none)
    ⟨false, true⟩ "/w" (some ⟨Option.none, Option.none⟩)
    ⟨fun _ => 0, fun _ => []⟩ []).1 (by decide) rfl

/-! ### Result-store lemmas and claims C1, C7 -/

/-- Store keys for one executable are injective in the test name. -/
theorem testKey_inj (executable n n' : String)
    (h : testKey executable n = testKey executable n') : n = n' := by
  unfold testKey at h
  have hd := congrArg String.data h
  simp only [String.data_append, List.append_assoc] at hd
  exact String.ext (List.append_cancel_left (List.append_cancel_left hd))

/-- `setStatus` leaves every other key unchanged. -/
theorem setStatus_other (store : TestStoreMap) (e n : String) (st : TestStatus)
    (k : String) (hk : k ≠ testKey e n) : setStatus store e n st k = store k := by
  simp [setStatus, hk]

/-- `setStatus` stores exactly the given status at its key. -/
theorem setStatus_self_status (store : TestStoreMap) (e n : String)
    (st : TestStatus) :
    ((setStatus store e n st) (testKey e n)).map (fun r => r.status) =
      some st := by
  simp [setStatus]

/-- `setOutput` leaves every other key unchanged. -/
theorem setOutput_other (store : TestStoreMap) (e n out : String) (now : Nat)
    (k : String) (hk : k ≠ testKey e n) :
    setOutput store e n out now k = store k := by
  simp [setOutput, hk]

/-- A bulk update whose entries all name other tests leaves a key unchanged. -/
theorem setStatusBulk_other (exec : String)
    (entries : List (String × TestStatus)) (n : String)
    (hne : ∀ e ∈ entries, e.1 ≠ n) :
    ∀ store : TestStoreMap,
      setStatusBulk store exec entries (testKey exec n) =
        store (testKey exec n) := by
  induction entries with
  | nil => intro store; rfl
  | cons e rest ih =>
    intro store
    have h1 : e.1 ≠ n := hne e (List.mem_cons_self e rest)
    have hrest : ∀ e' ∈ rest, e'.1 ≠ n := fun e' he' =>
      hne e' (List.mem_cons_of_mem e he')
    show setStatusBulk (setStatus store exec e.1 e.2) exec rest
        (testKey exec n) = store (testKey exec n)
    rw [ih hrest]
    exact setStatus_other store exec e.1 e.2 (testKey exec n)
      (fun hc => h1 (testKey_inj exec n e.1 hc).symm)

/-- After a bulk update built by mapping a status function over the name
list, a requested name's stored status is that function's value. -/
theorem setStatusBulk_status_of_mem (exec : String) (f : String → TestStatus) :
    ∀ (names : List String) (store : TestStoreMap) (n : String), n ∈ names →
      ((setStatusBulk store exec (names.map fun n' => (n', f n')))
          (testKey exec n)).map (fun r => r.status) = some (f n) := by
  intro names
  induction names with
  | nil => intro store n h; cases h
  | cons m rest ih =>
    intro store n hn
    show ((setStatusBulk (setStatus store exec m (f m)) exec
        (rest.map fun n' => (n', f n'))) (testKey exec n)).map
        (fun r => r.status) = some (f n)
    by_cases hmem : n ∈ rest
    · exact ih (setStatus store exec m (f m)) n hmem
    · have hnm : n = m := by
        rcases List.mem_cons.mp hn with h | h
        · exact h
        · exact absurd h hmem
      subst hnm
      have hne : ∀ e ∈ rest.map (fun n' => (n', f n')), e.1 ≠ n := by
        intro e he
        rcases List.mem_map.mp he with ⟨x, hx, rfl⟩
        intro hc
        exact hmem (hc ▸ hx)
      rw [setStatusBulk_other exec _ n hne]
      exact setStatus_self_status store exec n (f n)

/-- The per-name `setOutput` fold after a run never changes a stored
status. -/
theorem setOutputFold_status (exec combined : String) (now : Nat) (n : String)
    (s : TestStatus) :
    ∀ (names : List String) (store : TestStoreMap),
      (store (testKey exec n)).map (fun r => r.status) = some s →
      ((names.foldl (fun st fn => setOutput st exec fn combined now) store)
          (testKey exec n)).map (fun r => r.status) = some s := by
  intro names
  induction names with
  | nil => intro store h; exact h
  | cons m rest ih =>
    intro store h
    rw [List.foldl_cons]
    apply ih
    by_cases hm : testKey exec n = testKey exec m
    · rcases hst : store (testKey exec n) with _ | r
      · rw [hst] at h; cases h
      · rw [hst] at h
        simp only [Option.map_some'] at h
        have hr : r.status = s := Option.some.inj h
        rw [hm] at hst
        simp [setOutput, hm, hst, hr]
    · rw [setOutput_other store exec m combined now (testKey exec n) hm]
      exact h

/-- With both external calls succeeding, `ensureBuilt` on an available
project returns true (no exception propagates). -/
theorem ensureBuilt_ret_ok (fs : FileSys) (svc : BuildSvc) (root : String)
    (proj : ProjectModel) (store : StalenessStore) (names : List String)
    (hc : svc.configureOk = true) (hb : svc.buildOk = true) :
    (ensureBuiltModel fs svc root (some proj) store names).ret =
      Except.ok true := by
  cases hcc : cmakeListsChanged fs root store with
  | true =>
    cases hnb : sourcesChanged fs root (saveCmakeMtimes fs root store) proj
        names with
    | true => simp [ensureBuiltModel, hcc, hc, ensureBuiltStage2, hnb, hb]
    | false => simp [ensureBuiltModel, hcc, hc, ensureBuiltStage2, hnb, hb]
  | false =>
    cases hnb : sourcesChanged fs root store proj names with
    | true => simp [ensureBuiltModel, hcc, ensureBuiltStage2, hnb, hb]
    | false => simp [ensureBuiltModel, hcc, ensureBuiltStage2, hnb]

/-- C1: once a run reaches the spawn (project available, build stage
succeeded, artifact resolved), the status recorded for each requested name
is `statusOfName` of the combined stdout+stderr text — failed for a name
captured by a `[ FAILED ]` marker line, passed for one captured only by a
`[ PASSED ]` marker line, none (not run) otherwise — and the recorded
statuses are independent of the process exit code, so a launch failure or a
non-zero exit marks nothing failed by itself. -/
theorem gtest_C1_status_from_markers (env : RunEnv) (stal : StalenessStore)
    (store : TestStoreMap) (executable : String) (fullNames : List String)
    (name : String) (proj : ProjectModel) (exePath : String)
    (hmem : name ∈ fullNames)
    (hproj : env.project = some proj)
    (hc : env.svc.configureOk = true) (hb : env.svc.buildOk = true)
    (hexe : getExecutablePath proj executable = some exePath) :
    (((runTestsWithNamesModel env stal store executable fullNames).store
        (testKey executable name)).map (fun r => r.status) =
      some (statusOfName (env.procOut.stdout ++ "\n" ++ env.procOut.stderr)
        name)) ∧
    ∀ code : Int,
      (runTestsWithNamesModel
          { env with procOut := { env.procOut with exitCode := code } }
          stal store executable fullNames).store =
        (runTestsWithNamesModel env stal store executable fullNames).store := by
  constructor
  · have hlen : ¬ fullNames.length = 0 := by
      intro h0
      exact absurd (List.length_eq_zero.mp h0) (List.ne_nil_of_mem hmem)
    unfold runTestsWithNamesModel
    rw [if_neg hlen, hproj]
    dsimp only
    rcases heb : ensureBuiltModel env.fs env.svc env.root (some proj) stal
        [executable] with ⟨ret, stal1, calls⟩
    have hret := ensureBuilt_ret_ok env.fs env.svc env.root proj stal
      [executable] hc hb
    rw [heb] at hret
    dsimp only at hret
    subst hret
    dsimp only
    rw [hexe]
    dsimp only
    apply setOutputFold_status
    have hparse : parseGTestOutput env.procOut.stdout env.procOut.stderr
        executable fullNames = fullNames.map fun n =>
          (n, statusOfName (env.procOut.stdout ++ "\n" ++ env.procOut.stderr)
            n) := rfl
    rw [hparse]
    exact setStatusBulk_status_of_mem executable _ fullNames _ name hmem
  · intro code
    rfl

/-- C1 witness: a concrete run whose output fails `A.B` records `failed`
for it regardless of exit code. -/
theorem gtest_C1_status_from_markers_witness :
    (((runTestsWithNamesModel
        { project := some ⟨some [⟨[⟨"t", "EXECUTABLE", ["/b/t"], []⟩]⟩],
            Option.none⟩
          svc := ⟨true, true⟩
          fs := fun _ => Option.none
          root := "/w"
          baseFilter := ""
          gtestFlags := []
          envVars := []
          pluginGdb := Option.none
          pluginEnvFile := Option.none
          launchMatch := Option.none
          procOut := ⟨"[ FAILED ] A.B", "", 1⟩
          now := 0
          workspaceFolder := "/w" }
        ⟨fun _ => 0, fun _ => []⟩ (fun _ => Option.none) "t" ["A.B"]).store
        (testKey "t" "A.B")).map (fun r => r.status) =
      some (statusOfName ("[ FAILED ] A.B" ++ "\n" ++ "") "A.B")) :=
  (gtest_C1_status_from_markers
    { project := some ⟨some [⟨[⟨"t", "EXECUTABLE", ["/b/t"], []⟩]⟩],
        Option.none⟩
      svc := ⟨true, true⟩
      fs := fun _ => Option.none
      root := "/w"
      baseFilter := ""
      gtestFlags := []
      envVars := []
      pluginGdb := Option.none
      pluginEnvFile := Option.none
      launchMatch := Option.none
      procOut := ⟨"[ FAILED ] A.B", "", 1⟩
      now := 0
      workspaceFolder := "/w" }
    ⟨fun _ => 0, fun _ => []⟩ (fun _ => Option.none) "t" ["A.B"] "A.B"
    ⟨some [⟨[⟨"t", "EXECUTABLE", ["/b/t"], []⟩]⟩], Option.none⟩ "/b/t"
    (List.mem_singleton.mpr rfl) rfl rfl rfl (by decide)).1

/-- C7: with a nonempty request, a run that fails because no project is
available, or because the target's artifact path cannot be resolved, shows a
user-visible error and aborts with the result store untouched — no status
mutation and no process spawn. -/
theorem gtest_C7_abort_before_status (env : RunEnv) (stal : StalenessStore)
    (store : TestStoreMap) (executable : String) (fullNames : List String)
    (hne : ¬ fullNames.length = 0) :
    (env.project = Option.none →
      runTestsWithNamesModel env stal store executable fullNames =
        { store := store, stal := stal
          events := [RunEv.showError "CMake project not available."]
          threw := false }) ∧
    (∀ proj, env.project = some proj →
      env.svc.configureOk = true → env.svc.buildOk = true →
      getExecutablePath proj executable = Option.none →
      (runTestsWithNamesModel env stal store executable fullNames).store =
          store ∧
        (RunEv.showError ("Executable not found for target: " ++ executable)) ∈
          (runTestsWithNamesModel env stal store executable fullNames).events ∧
        ∀ e a c, RunEv.spawn e a c ∉
          (runTestsWithNamesModel env stal store executable fullNames).events) := by
  constructor
  · intro h
    unfold runTestsWithNamesModel
    rw [if_neg hne, h]
  · intro proj hproj hc hb hexe
    unfold runTestsWithNamesModel
    rw [if_neg hne, hproj]
    dsimp only
    rcases heb : ensureBuiltModel env.fs env.svc env.root (some proj) stal
        [executable] with ⟨ret, stal1, calls⟩
    have hret := ensureBuilt_ret_ok env.fs env.svc env.root proj stal
      [executable] hc hb
    rw [heb] at hret
    dsimp only at hret
    subst hret
    dsimp only
    rw [hexe]
    refine ⟨rfl, ?_, ?_⟩
    · exact List.mem_append_right _ (List.mem_singleton.mpr rfl)
    · intro e a c hmem
      rcases List.mem_append.mp hmem with h1 | h1
      · rcases List.mem_map.mp h1 with ⟨x, _, hx⟩
        cases x <;> simp [extCallEv] at hx
      · simp at h1

/-- C7 witness: with no project available, a one-test run returns the error
event and both stores unchanged. -/
theorem gtest_C7_abort_before_status_witness :
    runTestsWithNamesModel
        { project := Option.none
          svc := ⟨true, true⟩
          fs := fun _ => Option.none
          root := "/w"
          baseFilter := ""
          gtestFlags := []
          envVars := []
          pluginGdb := Option.none
          pluginEnvFile := Option.none
          launchMatch := Option.none
          procOut := ⟨"", "", 0⟩
          now := 0
          workspaceFolder := "/w" }
        ⟨fun _ => 0, fun _ => []⟩ (fun _ => Option.none) "t" ["A.B"] =
      { store := fun _ => Option.none
        stal := ⟨fun _ => 0, fun _ => []⟩
        events := [RunEv.showError "CMake project not available."]
        threw := false } :=
  (gtest_C7_abort_before_status
    { project := Option.none
      svc := ⟨true, true⟩
      fs := fun _ => Option.none
      root := "/w"
      baseFilter := ""
      gtestFlags := []
      envVars := []
      pluginGdb := Option.none
      pluginEnvFile := Option.none
      launchMatch := Option.none
      procOut := ⟨"", "", 0⟩
      now := 0
      workspaceFolder := "/w" }
    ⟨fun _ => 0, fun _ => []⟩ (fun _ => Option.none) "t" ["A.B"]
    (by decide)).1 rfl

/-! ### Claim C6: debug-configuration precedence -/

/-- An absent optional string is not truthy. -/
theorem isPresent_none : isPresent Option.none = false := rfl

/-- C6: the composed debug configuration's debugger-path and
environment-file fields obey the three-tier precedence.  For each field:
when the plugin's own setting is present it wins over a matching launch
configuration's value; when only the matching launch configuration's value
is present it is copied (the environment file after workspace-folder
variable substitution, as the source copies it); when neither is present the
field is absent. -/
theorem gtest_C6_debug_precedence (env : RunEnv) (executable exePath : String)
    (fullNames : List String) :
    ((isPresent env.pluginGdb = true →
        (composeDebugConfig env executable exePath fullNames).miDebuggerPath =
          env.pluginGdb) ∧
      (isPresent env.pluginGdb = false →
        ∀ m, env.launchMatch = some m → isPresent m.miDebuggerPath = true →
        (composeDebugConfig env executable exePath fullNames).miDebuggerPath =
          m.miDebuggerPath) ∧
      (isPresent env.pluginGdb = false →
        (∀ m, env.launchMatch = some m → isPresent m.miDebuggerPath = false) →
        (composeDebugConfig env executable exePath fullNames).miDebuggerPath =
          Option.none)) ∧
    ((isPresent env.pluginEnvFile = true →
        (composeDebugConfig env executable exePath fullNames).envFile =
          env.pluginEnvFile) ∧
      (isPresent env.pluginEnvFile = false →
        ∀ m v, env.launchMatch = some m → m.envFile = some v →
        isPresent m.envFile = true →
        (composeDebugConfig env executable exePath fullNames).envFile =
          some (resolveLaunchPath v env.workspaceFolder)) ∧
      (isPresent env.pluginEnvFile = false →
        (∀ m, env.launchMatch = some m → isPresent m.envFile = false) →
        (composeDebugConfig env executable exePath fullNames).envFile =
          Option.none)) := by
  refine ⟨⟨?_, ?_, ?_⟩, ?_, ?_, ?_⟩
  · intro hg
    cases hlm : env.launchMatch with
    | none =>
      cases hpe : isPresent env.pluginEnvFile <;>
        simp [composeDebugConfig, isPresent_none, hg, hlm, hpe]
    | some m =>
      cases hpe : isPresent env.pluginEnvFile <;>
        cases hmm : isPresent m.miDebuggerPath <;>
          cases hme : isPresent m.envFile <;>
            simp [composeDebugConfig, isPresent_none, hg, hlm, hpe, hmm, hme]
  · intro hg m hlm hmm
    cases hpe : isPresent env.pluginEnvFile <;>
      cases hme : isPresent m.envFile <;>
        simp [composeDebugConfig, isPresent_none, hg, hlm, hpe, hmm, hme]
  · intro hg hnone
    cases hlm : env.launchMatch with
    | none =>
      cases hpe : isPresent env.pluginEnvFile <;>
        simp [composeDebugConfig, isPresent_none, hg, hlm, hpe]
    | some m =>
      have hmm := hnone m hlm
      cases hpe : isPresent env.pluginEnvFile <;>
        cases hme : isPresent m.envFile <;>
          simp [composeDebugConfig, isPresent_none, hg, hlm, hpe, hmm, hme]
  · intro hpe
    cases hlm : env.launchMatch with
    | none =>
      cases hg : isPresent env.pluginGdb <;>
        simp [composeDebugConfig, isPresent_none, hg, hlm, hpe]
    | some m =>
      cases hg : isPresent env.pluginGdb <;>
        cases hmm : isPresent m.miDebuggerPath <;>
          cases hme : isPresent m.envFile <;>
            simp [composeDebugConfig, isPresent_none, hg, hlm, hpe, hmm, hme]
  · intro hpe m v hlm hv hme
    have hiv : isPresent (some v) = true := hv ▸ hme
    cases hg : isPresent env.pluginGdb <;>
      cases hmm : isPresent m.miDebuggerPath <;>
        simp [composeDebugConfig, isPresent_none, hg, hlm, hpe, hmm, hme, hv,
          hiv]
  · intro hpe hnone
    cases hlm : env.launchMatch with
    | none =>
      cases hg : isPresent env.pluginGdb <;>
        simp [composeDebugConfig, isPresent_none, hg, hlm, hpe]
    | some m =>
      have hme := hnone m hlm
      cases hg : isPresent env.pluginGdb <;>
        cases hmm : isPresent m.miDebuggerPath <;>
          simp [composeDebugConfig, isPresent_none, hg, hlm, hpe, hmm, hme]

/-- C6 witness: with the plugin's debugger path set and a matching launch
configuration offering both fields, the plugin's debugger path wins, and the
launch configuration's environment file is copied (with the
workspace-folder variable substituted) because the plugin sets none. -/
theorem gtest_C6_debug_precedence_witness :
    ((composeDebugConfig
        { project := Option.none
          svc := ⟨true, true⟩
          fs := fun _ => Option.none
          root := "/w"
          baseFilter := ""
          gtestFlags := []
          envVars := []
          pluginGdb := some "/usr/bin/gdb"
          pluginEnvFile := Option.none
          launchMatch := some ⟨some "/opt/gdb", some "${workspaceFolder}/.env"⟩
          procOut := ⟨"", "", 0⟩
          now := 0
          workspaceFolder := "/w" }
        "t" "/b/t" ["A.B"]).miDebuggerPath = some "/usr/bin/gdb") ∧
    ((composeDebugConfig
        { project := Option.none
          svc := ⟨true, true⟩
          fs := fun _ => Option.none
          root := "/w"
          baseFilter := ""
          gtestFlags := []
          envVars := []
          pluginGdb := some "/usr/bin/gdb"
          pluginEnvFile := Option.none
          launchMatch := some ⟨some "/opt/gdb", some "${workspaceFolder}/.env"⟩
          procOut := ⟨"", "", 0⟩
          now := 0
          workspaceFolder := "/w" }
        "t" "/b/t" ["A.B"]).envFile =
      some (resolveLaunchPath "${workspaceFolder}/.env" "/w")) := by
  constructor
  · exact (gtest_C6_debug_precedence
      { project := Option.none
        svc := ⟨true, true⟩
        fs := fun _ => Option.none
        root := "/w"
        baseFilter := ""
        gtestFlags := []
        envVars := []
        pluginGdb := some "/usr/bin/gdb"
        pluginEnvFile := Option.none
        launchMatch := some ⟨some "/opt/gdb", some "${workspaceFolder}/.env"⟩
        procOut := ⟨"", "", 0⟩
        now := 0
        workspaceFolder := "/w" }
      "t" "/b/t" ["A.B"]).1.1 (by decide)
  · exact (gtest_C6_debug_precedence
      { project := Option.none
        svc := ⟨true, true⟩
        fs := fun _ => Option.none
        root := "/w"
        baseFilter := ""
        gtestFlags := []
        envVars := []
        pluginGdb := some "/usr/bin/gdb"
        pluginEnvFile := Option.none
        launchMatch := some ⟨some "/opt/gdb", some "${workspaceFolder}/.env"⟩
        procOut := ⟨"", "", 0⟩
        now := 0
        workspaceFolder := "/w" }
      "t" "/b/t" ["A.B"]).2.2.1 rfl
      ⟨some "/opt/gdb", some "${workspaceFolder}/.env"⟩
      "${workspaceFolder}/.env" rfl rfl (by decide)

end GTestPlugin
